import Mathlib

/-!
Verification of ics2csv, a converter from iCalendar text to a CSV table of
events.  The source program (ics2csv.py) is shallowly embedded here:

* Python strings are modelled as lists of characters (type PyStr below);
  the Python operations used by the program (find, slicing, strip, split,
  replace, startswith) are given as executable Lean functions with Python
  semantics (negative slice indices count from the end, find returns -1
  when absent, strip removes a set of characters from both ends).
* Python dicts keyed by strings are modelled as association lists with
  overwrite-on-insert; lookup of an absent key is a KeyError, modelled
  with the Except monad.
* File reading/writing and printing are external to the core: read_icalendar
  takes the list of (newline-stripped) input lines, write_fields_csv returns
  the list of CSV rows it would write, and the diagnostic print calls of
  remove_malformed / check_duplicates are represented by the data they
  would print (check_duplicates returns the list of reported position
  pairs; remove_malformed returns the filtered list).
* Exceptions (ValueError from tuple unpacking and strptime, KeyError,
  RuntimeError for a missing date) are the constructors of the Err type.
-/

namespace ICS

/-- Python strings are modelled as lists of characters. -/
abbrev PyStr := List Char

/-- Convert a Lean string literal to the PyStr model. -/
def pys (s : String) : PyStr := s.toList

/-- Errors the program can raise.  unpackError is the ValueError raised by
unpacking `split(':', 1)` of a line without a colon into two variables;
timeDataError is the ValueError raised by datetime.strptime on a value that
does not match the format (it carries the offending value); keyError is a
dict KeyError carrying the missing key; missingDate is the RuntimeError
raised by extract_date, carrying the offending event's field mapping;
overflowError is the OverflowError datetime addition raises when the
result would pass datetime's maximum year 9999. -/
inductive Err where
  | unpackError : Err
  | timeDataError : PyStr → Err
  | keyError : PyStr → Err
  | missingDate : List (PyStr × PyStr) → Err
  | overflowError : Err
deriving DecidableEq

/-- The message attached to each ValueError, as CPython produces it.  The
tuple-unpacking ValueError has a fixed message that does not mention the
line being split. -/
def errMessage : Err → String
  | .unpackError => "not enough values to unpack (expected 2, got 1)"
  | .timeDataError _ => "time data does not match format"
  | .keyError _ => "KeyError"
  | .missingDate _ => "Missing date in event"
  | .overflowError => "date value out of range"

/-- Helper for findAux: first index at which pat occurs in the string, as an
option. -/
def findAux (pat : PyStr) : PyStr → Option Nat
  | [] => if pat.isPrefixOf ([] : PyStr) then some 0 else none
  | c :: t => if pat.isPrefixOf (c :: t) then some 0 else (findAux pat t).map (· + 1)

/-- Python str.find: index of the first occurrence of pat in s, or -1. -/
def pyFind (s pat : PyStr) : Int :=
  match findAux pat s with
  | some n => (n : Int)
  | none => -1

/-- Normalize a Python slice index: negative indices count from the end of
the string (clamped at 0); take/drop clamp the high end. -/
def sliceIdx (s : PyStr) (i : Int) : Nat :=
  if i < 0 then ((s.length : Int) + i).toNat else i.toNat

/-- Python slicing s[a:b]. -/
def pySlice (s : PyStr) (a b : Int) : PyStr :=
  (s.take (sliceIdx s b)).drop (sliceIdx s a)

/-- Python slicing s[a:]. -/
def pySliceFrom (s : PyStr) (a : Int) : PyStr :=
  s.drop (sliceIdx s a)

/-- Python s.split(c, 1) restricted to its two-element outcome: the parts
before and after the first occurrence of c, or none when c is absent (in
which case unpacking the one-element result into two variables raises
ValueError). -/
def splitOnce (c : Char) : PyStr → Option (PyStr × PyStr)
  | [] => none
  | x :: t => if x = c then some ([], t) else (splitOnce c t).map (fun p => (x :: p.1, p.2))

/-- Python str.replace for a two-character pattern: replace every
non-overlapping occurrence of [a, b], scanning left to right, by r;
replaced text is not rescanned. -/
def replace2 (a b : Char) (r : PyStr) : PyStr → PyStr
  | [] => []
  | [x] => [x]
  | x :: y :: t =>
    if x = a ∧ y = b then r ++ replace2 a b r t
    else x :: replace2 a b r (y :: t)

/-- Python str.replace('"', '""'): double every double-quote character. -/
def escapeQuotes : PyStr → PyStr
  | [] => []
  | c :: t => if c = '"' then '"' :: '"' :: escapeQuotes t else c :: escapeQuotes t

/-- Characters stripped by Python str.strip() with no argument (the ASCII
whitespace characters; the program's data is ASCII). -/
def isSpaceChar (c : Char) : Bool :=
  c = ' ' || c = '\t' || c = '\n' || c = '\r' || c = '\x0b' || c = '\x0c'

/-- Remove leading characters satisfying p (Python lstrip). -/
def lstripP (p : Char → Bool) (s : PyStr) : PyStr := s.dropWhile p

/-- Remove trailing characters satisfying p (Python rstrip). -/
def rstripP (p : Char → Bool) (s : PyStr) : PyStr := (s.reverse.dropWhile p).reverse

/-- Remove leading and trailing characters satisfying p (Python strip). -/
def stripP (p : Char → Bool) (s : PyStr) : PyStr := rstripP p (lstripP p s)

/-- Python str.strip(): trim whitespace from both ends. -/
def pystrip (s : PyStr) : PyStr := stripP isSpaceChar s

/-- Python str.strip('"'): trim double quotes from both ends. -/
def stripQuotes (s : PyStr) : PyStr := stripP (fun c => c == '"') s

/-- Boolean substring test, used to state what an error message does or
does not contain. -/
def containsStr (s sub : String) : Bool := (findAux (pys sub) (pys s)).isSome

/-- An event record: a Python dict from raw property name to unescaped
value, modelled as an association list whose keys are unique (all updates
go through insertKey). -/
abbrev Event := List (PyStr × PyStr)

/-- Dict lookup returning an option. -/
def getValue? (e : Event) (k : PyStr) : Option PyStr :=
  match e with
  | [] => none
  | (k', v) :: t => if k' = k then some v else getValue? t k

/-- Python `k in event`. -/
def hasKey (e : Event) (k : PyStr) : Bool := (getValue? e k).isSome

/-- Python event.get(k, d). -/
def getDefault (e : Event) (k : PyStr) (d : PyStr) : PyStr := (getValue? e k).getD d

/-- Python event[k] as a fallible operation: KeyError when absent. -/
def getItem (e : Event) (k : PyStr) : Except Err PyStr :=
  match getValue? e k with
  | some v => .ok v
  | none => .error (.keyError k)

/-- Python dict assignment event[k] = v: overwrite in place if the key
exists (keeping its position), else append. -/
def insertKey (e : Event) (k v : PyStr) : Event :=
  match e with
  | [] => [(k, v)]
  | (k', v') :: t => if k' = k then (k, v) :: t else (k', v') :: insertKey t k v

/-- Naive datetime (no timezone), the part of Python's datetime the program
uses. -/
structure DateTime where
  year : Nat
  month : Nat
  day : Nat
  hour : Nat
  minute : Nat
  second : Nat
deriving DecidableEq

/-- Length of a month, with Gregorian leap years, as datetime has it. -/
def daysInMonth (y m : Nat) : Nat :=
  if m = 2 then (if (y % 4 = 0 ∧ y % 100 ≠ 0) ∨ y % 400 = 0 then 29 else 28)
  else if m = 4 ∨ m = 6 ∨ m = 9 ∨ m = 11 then 30 else 31

/-- Value of an ASCII digit. -/
def toDigit (c : Char) : Option Nat :=
  if '0' ≤ c ∧ c ≤ '9' then some (c.toNat - 48) else none

/-- Two-digit number. -/
def num2 (a b : Char) : Option Nat :=
  match toDigit a, toDigit b with
  | some x, some y => some (10 * x + y)
  | _, _ => none

/-- Four-digit number. -/
def num4 (a b c d : Char) : Option Nat :=
  match num2 a b, num2 c d with
  | some x, some y => some (100 * x + y)
  | _, _ => none

/-- Models datetime.strptime(s, a format of year, month, day, a literal T,
hour, minute, second) on canonical fixed-width input: exactly 4+2+2 digits,
the literal 'T', then 2+2+2 digits, with datetime's range validation
(month 1-12, day bounded by the month's length, hour below 24, minute and
second below 60, year 1-9999).  Any other input yields none, modelling the
ValueError strptime raises; strptime's additional tolerance for shorter
digit runs does not arise for the calendar data this program is given. -/
def strptime_local (s : PyStr) : Option DateTime :=
  match s with
  | [y1, y2, y3, y4, o1, o2, d1, d2, t, h1, h2, i1, i2, s1, s2] =>
    if t = 'T' then
      match num4 y1 y2 y3 y4, num2 o1 o2, num2 d1 d2, num2 h1 h2, num2 i1 i2, num2 s1 s2 with
      | some y, some mo, some d, some h, some mi, some se =>
        if 1 ≤ y ∧ y ≤ 9999 ∧ 1 ≤ mo ∧ mo ≤ 12 ∧ 1 ≤ d ∧ d ≤ daysInMonth y mo ∧
           h ≤ 23 ∧ mi ≤ 59 ∧ se ≤ 59
        then some ⟨y, mo, d, h, mi, se⟩ else none
      | _, _, _, _, _, _ => none
    else none
  | _ => none

/-- The same with a trailing literal 'Z' (UTC form). -/
def strptime_utc (s : PyStr) : Option DateTime :=
  match s with
  | [y1, y2, y3, y4, o1, o2, d1, d2, t, h1, h2, i1, i2, s1, s2, z] =>
    if z = 'Z' then strptime_local [y1, y2, y3, y4, o1, o2, d1, d2, t, h1, h2, i1, i2, s1, s2]
    else none
  | _ => none

/-- Adding timedelta(hours=1), with day, month and year rollover; the
addition raises OverflowError (modelled as none) when it would pass
datetime's maximum year 9999, i.e. at 9999-12-31 23:MM:SS. -/
def addHour (d : DateTime) : Option DateTime :=
  if d.hour + 1 ≤ 23 then some { d with hour := d.hour + 1 }
  else if d.day + 1 ≤ daysInMonth d.year d.month then
    some { d with hour := 0, day := d.day + 1 }
  else if d.month + 1 ≤ 12 then
    some { d with hour := 0, day := 1, month := d.month + 1 }
  else if d.year + 1 ≤ 9999 then
    some { d with hour := 0, day := 1, month := 1, year := d.year + 1 }
  else none

/-- ASCII digit character. -/
def digitChar (n : Nat) : Char := Char.ofNat (48 + n)

/-- Zero-padded two-digit decimal rendering (strftime field). -/
def two (n : Nat) : PyStr := [digitChar (n / 10 % 10), digitChar (n % 10)]

/-- Zero-padded four-digit decimal rendering (strftime year). -/
def four (n : Nat) : PyStr :=
  [digitChar (n / 1000 % 10), digitChar (n / 100 % 10), digitChar (n / 10 % 10), digitChar (n % 10)]

/-- strftime to the format of day slash month slash year space hour colon
minute. -/
def fmt_dmy_hm (d : DateTime) : PyStr :=
  two d.day ++ pys "/" ++ two d.month ++ pys "/" ++ four d.year ++ pys " " ++
    two d.hour ++ pys ":" ++ two d.minute

/-- The property-name constants the program reads. -/
def kDESCRIPTION : PyStr := pys "DESCRIPTION"

def kTITLE : PyStr := pys "TITLE"

def kLINK : PyStr := pys "LINK"

def kDATE : PyStr := pys "DATE"

def kLOCATION : PyStr := pys "LOCATION"

def kDTSTART : PyStr := pys "DTSTART"

def kDTSTART_VALUE_DATE : PyStr := pys "DTSTART;VALUE=DATE"

def kDTSTART_TZID : PyStr := pys "DTSTART;TZID=Europe/Madrid"

/-- add_field of the source: store field -> unescape(text) into the event,
a no-op when field is None.  Unescaping first replaces backslash-comma by a
comma, then backslash-n by a newline, as the two chained str.replace calls
do. -/
def add_field (event : Event) (field : Option PyStr) (text : PyStr) : Event :=
  match field with
  | none => event
  | some f => insertKey event f (replace2 '\\' 'n' (pys "\n") (replace2 '\\' ',' (pys ",") text))

/-- The mutable state of read_icalendar's line loop: the finished events,
the event/field/text accumulators, and the in_event and sublevel flags
(sublevel is an integer, as in the source, where an unmatched top-level
line starting with END: can drive it negative). -/
structure St where
  events : List Event
  event : Event
  field : Option PyStr
  text : PyStr
  inEvent : Bool
  sublevel : Int
deriving DecidableEq

/-- The initial loop state. -/
def initSt : St := ⟨[], [], none, [], false, 0⟩

/-- One iteration of read_icalendar's loop on one (newline-stripped) input
line, a direct transcription of the if/elif chain of the source.  The only
fallible step is the split of a key/value line at its first colon. -/
def stepLine (s : St) (l : PyStr) : Except Err St :=
  if s.inEvent = false then
    if (pys "BEGIN:VEVENT").isPrefixOf l then .ok { s with inEvent := true } else .ok s
  else
    if (pys "END:VEVENT").isPrefixOf l then
      .ok { s with events := s.events ++ [add_field s.event s.field s.text],
                   event := [], field := none, text := [], inEvent := false }
    else if (pys "BEGIN:").isPrefixOf l then
      .ok { s with event := add_field s.event s.field s.text, sublevel := s.sublevel + 1 }
    else if (pys "END:").isPrefixOf l then
      .ok { s with sublevel := s.sublevel - 1 }
    else if s.sublevel = 0 then
      if l.head? = some ' ' then .ok { s with text := s.text ++ l.tail }
      else
        match splitOnce ':' l with
        | some kv => .ok { s with event := add_field s.event s.field s.text,
                                  field := some kv.1, text := kv.2 }
        | none => .error .unpackError
    else .ok s

/-- read_icalendar: fold the line loop over the input lines (the file is
read externally and handed over as newline-stripped lines) and return the
finished events. -/
def read_icalendar (lines : List PyStr) : Except Err (List Event) :=
  (lines.foldlM stepLine initSt).map St.events

/-- The malformedness test of remove_malformed: an event is kept when it
has a DESCRIPTION that starts with the literal prefix of an anchor tag. -/
def keepEvent (e : Event) : Bool :=
  match getValue? e kDESCRIPTION with
  | none => false
  | some d => (pys "<a href=").isPrefixOf d

/-- The enumerate loop of remove_malformed, collecting the (0-based)
indices of malformed events in ascending order; i is the index of the head
of the remaining list. -/
def bad_indices_from (i : Nat) : List Event → List Nat
  | [] => []
  | e :: t => (if keepEvent e then [] else [i]) ++ bad_indices_from (i + 1) t

/-- The ascending list of (0-based) indices remove_malformed collects into
bad_events. -/
def bad_indices (events : List Event) : List Nat := bad_indices_from 0 events

/-- remove_malformed: collect the indices of events with a missing or
ill-shaped DESCRIPTION, then pop them in reverse order.  The diagnostic
prints are external output and carry no data the rest of the pipeline
uses. -/
def remove_malformed (events : List Event) : List Event :=
  (bad_indices events).reverse.foldl (fun evs i => evs.eraseIdx i) events

/-- extract_title_and_link: derive TITLE and LINK from the DESCRIPTION
anchor tag and replace DESCRIPTION with the text after it, with Python's
find/slice/strip semantics.  Reading event['DESCRIPTION'] raises KeyError
when absent. -/
def extract_title_and_link (event : Event) : Except Err Event :=
  match getValue? event kDESCRIPTION with
  | none => .error (.keyError kDESCRIPTION)
  | some desc =>
    let link_start := pyFind desc (pys "href=") + 5
    let link_end := pyFind desc (pys ">")
    let text_end := pyFind desc (pys "</a>")
    let ev1 := insertKey event kTITLE (pystrip (pySlice desc (link_end + 1) text_end))
    let ev2 := insertKey ev1 kLINK (stripQuotes (pySlice desc link_start link_end))
    .ok (insertKey ev2 kDESCRIPTION (pystrip (pySliceFrom desc (text_end + 4))))

/-- extract_date: derive the readable DATE field, trying the three date
keys in the source's order; raise the missing-date RuntimeError (carrying
the event) when none is present. -/
def extract_date (event : Event) : Except Err Event :=
  match getValue? event kDTSTART_VALUE_DATE with
  | some date =>
    .ok (insertKey event kDATE
      (pySlice date 6 8 ++ pys "/" ++ pySlice date 4 6 ++ pys "/" ++ pySlice date 0 4))
  | none =>
    match getValue? event kDTSTART_TZID with
    | some v =>
      match strptime_local v with
      | some dt => .ok (insertKey event kDATE (fmt_dmy_hm dt))
      | none => .error (.timeDataError v)
    | none =>
      match getValue? event kDTSTART with
      | some v =>
        match strptime_utc v with
        | some dt =>
          match addHour dt with
          | some dt1 => .ok (insertKey event kDATE (fmt_dmy_hm dt1))
          | none => .error .overflowError
        | none => .error (.timeDataError v)
      | none => .error (.missingDate event)

/-- extract_fields: enrich every event in order; the first exception
aborts the loop. -/
def extract_fields (events : List Event) : Except Err (List Event) :=
  events.mapM (fun e => do
    let e1 ← extract_title_and_link e
    extract_date e1)

/-- First-match lookup in check_duplicates' seen dict, keyed by the
(TITLE, LOCATION) pair. -/
def alookup (seen : List ((PyStr × PyStr) × Nat)) (p : PyStr × PyStr) : Option Nat :=
  match seen with
  | [] => none
  | (q, i) :: t => if q = p then some i else alookup t p

/-- The loop of check_duplicates: i is the 0-based position of the head of
the remaining list; the result is the list of printed (position,
duplicate-of-position) pairs, both 1-based.  Indexing event['TITLE'] and
event['LOCATION'] without a default raises KeyError when absent. -/
def cdAux (i : Nat) (seen : List ((PyStr × PyStr) × Nat)) : List Event → Except Err (List (Nat × Nat))
  | [] => .ok []
  | e :: rest => do
    let t ← getItem e kTITLE
    let l ← getItem e kLOCATION
    match alookup seen (t, l) with
    | some j => do
      let ws ← cdAux (i + 1) seen rest
      .ok ((i + 1, j + 1) :: ws)
    | none => cdAux (i + 1) (seen ++ [((t, l), i)]) rest

/-- check_duplicates: scan the events once, remembering the first 0-based
index seen for each (TITLE, LOCATION) pair; events are only read, never
changed or removed. -/
def check_duplicates (events : List Event) : Except Err (List (Nat × Nat)) :=
  cdAux 0 [] events

/-- The fixed output column table: field keys in output order. -/
def FIELD_KEYS : List PyStr := [kTITLE, kDESCRIPTION, kDATE, kLOCATION, kLINK]

/-- The fixed output column table: Spanish display names in output order. -/
def COLUMN_NAMES : List PyStr :=
  [pys "Título", pys "Descripción", pys "Fecha", pys "Lugar", pys "Enlace"]

/-- One cell of a data row: the field's value, empty when absent, with
double quotes doubled. -/
def csvCell (e : Event) (f : PyStr) : PyStr := escapeQuotes (getDefault e f [])

/-- The cells of one event's row, in column-table order. -/
def rowCells (e : Event) : List PyStr := FIELD_KEYS.map (csvCell e)

/-- One CSV line: each cell wrapped in double quotes, joined by commas. -/
def csvLine (cells : List PyStr) : PyStr :=
  List.intercalate (pys ",") (cells.map (fun c => '"' :: (c ++ pys "\"")))

/-- write_fields_csv, as the list of lines it writes (without the trailing
newline each): the header row of display names, then one row per event. -/
def write_fields_csv (events : List Event) : List PyStr :=
  csvLine COLUMN_NAMES :: events.map (fun e => csvLine (rowCells e))

/-- The whole run of main on the given input lines: read, sanitize,
extract, optionally check duplicates, and produce the CSV lines.  Any
uncaught exception aborts the run before the CSV is produced. -/
def pipeline (lines : List PyStr) (warnDuplicates : Bool) : Except Err (List PyStr) :=
  match read_icalendar lines with
  | .error e => .error e
  | .ok evs0 =>
    match extract_fields (remove_malformed evs0) with
    | .error e => .error e
    | .ok evs1 =>
      if warnDuplicates then
        match check_duplicates evs1 with
        | .error e => .error e
        | .ok _ => .ok (write_fields_csv evs1)
      else .ok (write_fields_csv evs1)

/-- Scenario A input: a calendar with exactly one well-formed VEVENT whose
fields are the anchor-shaped DESCRIPTION and a date-only DTSTART. -/
def scenarioA : List PyStr :=
  [pys "BEGIN:VCALENDAR",
   pys "BEGIN:VEVENT",
   pys "DESCRIPTION:<a href=\"http://x\">Talk</a>Some talk",
   pys "DTSTART;VALUE=DATE:20240211",
   pys "END:VEVENT",
   pys "END:VCALENDAR"]

lemma hasKey_false_iff (e : Event) (k : PyStr) : hasKey e k = false ↔ getValue? e k = none := by
  cases h : getValue? e k <;> simp [hasKey, h]

/-- C1.  The spec's Scenario A pipeline output.  With default settings the
duplicate check runs, reads event['LOCATION'] of the single event, which
has no LOCATION key, and the resulting KeyError aborts the run before any
CSV is produced; the claimed CSV (header plus one data row, with an empty
Lugar cell) is produced only when the duplicate check is skipped. -/
theorem c1_scenario_a_run :
    pipeline scenarioA true = .error (.keyError kLOCATION) ∧
    pipeline scenarioA false =
      .ok [pys "\"Título\",\"Descripción\",\"Fecha\",\"Lugar\",\"Enlace\"",
           pys "\"Talk\",\"Some talk\",\"11/02/2024\",\"\",\"http://x\""] := by
  exact ⟨rfl, rfl⟩

/-- C3.  Key precedence of date normalization: when both DTSTART;VALUE=DATE
and DTSTART are present, DATE is built from the 8-digit YYYYMMDD value of
the DTSTART;VALUE=DATE branch, rearranged to DD/MM/YYYY with no time
component, whatever the DTSTART value holds. -/
theorem c3_date_precedence (ev : Event) (w : PyStr) (y1 y2 y3 y4 m1 m2 d1 d2 : Char)
    (hv : getValue? ev kDTSTART_VALUE_DATE = some [y1, y2, y3, y4, m1, m2, d1, d2])
    (_hdig : ([y1, y2, y3, y4, m1, m2, d1, d2] : PyStr).all (fun c => decide ('0' ≤ c ∧ c ≤ '9')) = true)
    (_hw : getValue? ev kDTSTART = some w) :
    extract_date ev = .ok (insertKey ev kDATE [d1, d2, '/', m1, m2, '/', y1, y2, y3, y4]) := by
  simp only [extract_date, hv]
  rfl

/-- Witness for c3_date_precedence: a concrete event carrying both keys,
where DTSTART holds a different (1999) datetime; DATE still comes out of
the DTSTART;VALUE=DATE value. -/
theorem c3_date_precedence_witness :
    extract_date [(kDTSTART_VALUE_DATE, pys "20240211"), (kDTSTART, pys "19990101T000000Z")] =
      .ok (insertKey [(kDTSTART_VALUE_DATE, pys "20240211"), (kDTSTART, pys "19990101T000000Z")]
            kDATE (pys "11/02/2024")) := by
  exact (c3_date_precedence _ _ '2' '0' '2' '4' '0' '2' '1' '1' (by rfl) (by decide) (by rfl)).trans
    (by rfl)

/-- Counterexample to C4 as stated: the event whose bare DTSTART holds the
well-formed UTC value 99991231T233000Z satisfies every hypothesis of the
claim (the value parses, as the first conjunct shows), yet date extraction
does not set DATE to the parsed time plus one hour: the addition passes
datetime's maximum year 9999, so the program raises OverflowError
instead. -/
theorem c4_overflow_counterexample :
    strptime_utc (pys "99991231T233000Z") = some ⟨9999, 12, 31, 23, 30, 0⟩ ∧
    extract_date [(kDTSTART, pys "99991231T233000Z")] = .error .overflowError := by
  exact ⟨rfl, rfl⟩

/-- C4 (amended).  An event with neither DTSTART;VALUE=DATE nor the
Madrid-TZID key, whose bare DTSTART parses in the UTC YYYYMMDDTHHMMSSZ
form, gets DATE set to the parsed time plus exactly one hour, rendered as
DD/MM/YYYY HH:MM, provided the addition stays within datetime's year
range; when adding the hour would pass year 9999 (a value of the form
9999-12-31 23:MM:SS), the addition raises OverflowError and no DATE is
set. -/
theorem c4_bare_dtstart_hour :
    (∀ (ev : Event) (v : PyStr) (dt dt1 : DateTime),
      hasKey ev kDTSTART_VALUE_DATE = false →
      hasKey ev kDTSTART_TZID = false →
      getValue? ev kDTSTART = some v →
      strptime_utc v = some dt →
      addHour dt = some dt1 →
      extract_date ev = .ok (insertKey ev kDATE (fmt_dmy_hm dt1))) ∧
    (∀ (ev : Event) (v : PyStr) (dt : DateTime),
      hasKey ev kDTSTART_VALUE_DATE = false →
      hasKey ev kDTSTART_TZID = false →
      getValue? ev kDTSTART = some v →
      strptime_utc v = some dt →
      addHour dt = none →
      extract_date ev = .error .overflowError) := by
  constructor
  · intro ev v dt dt1 h1 h2 hv hp hadd
    rw [hasKey_false_iff] at h1 h2
    simp only [extract_date, h1, h2, hv, hp, hadd]
  · intro ev v dt h1 h2 hv hp hadd
    rw [hasKey_false_iff] at h1 h2
    simp only [extract_date, h1, h2, hv, hp, hadd]

/-- Witness for c4_bare_dtstart_hour: at a year boundary the UTC value
20231231T233000Z plus one hour renders as 01/01/2024 00:30, while at
datetime's maximum the value 99991231T233000Z makes extraction raise the
overflow error. -/
theorem c4_bare_dtstart_hour_witness :
    extract_date [(kDTSTART, pys "20231231T233000Z")] =
      .ok (insertKey [(kDTSTART, pys "20231231T233000Z")] kDATE (pys "01/01/2024 00:30")) ∧
    extract_date [(kDTSTART, pys "99991231T233000Z")] = .error .overflowError := by
  constructor
  · exact (c4_bare_dtstart_hour.1 [(kDTSTART, pys "20231231T233000Z")] _
      ⟨2023, 12, 31, 23, 30, 0⟩ ⟨2024, 1, 1, 0, 30, 0⟩
      (by decide) (by decide) (by rfl) (by decide) (by decide)).trans (by rfl)
  · exact c4_bare_dtstart_hour.2 [(kDTSTART, pys "99991231T233000Z")] _
      ⟨9999, 12, 31, 23, 30, 0⟩ (by decide) (by decide) (by rfl) (by decide) (by decide)

/-- Counterexample to C5 as stated: date extraction can also raise an
error when one of the three keys IS present, namely the strptime
ValueError on a DTSTART value that does not parse; so "raises an error if
and only if none of the keys is present" fails on this event. -/
theorem c5_error_iff_counterexample :
    extract_date [(kDTSTART, pys "garbage")] = .error (.timeDataError (pys "garbage")) ∧
    hasKey [(kDTSTART, pys "garbage")] kDTSTART = true := by
  exact ⟨rfl, rfl⟩

/-- C5 (amended).  The missing-date RuntimeError, which carries the
offending event's field mapping, is raised exactly when the event has none
of the keys DTSTART;VALUE=DATE, DTSTART;TZID=Europe/Madrid and DTSTART
(a present key whose value fails datetime parsing raises a distinct
ValueError instead); and an extraction error is fatal: it propagates
through the pipeline, which aborts with that very error instead of
writing CSV lines. -/
theorem c5_missing_date_error :
    (∀ ev : Event, extract_date ev = .error (.missingDate ev) ↔
      (hasKey ev kDTSTART_VALUE_DATE = false ∧ hasKey ev kDTSTART_TZID = false ∧
       hasKey ev kDTSTART = false)) ∧
    (∀ (lines : List PyStr) (w : Bool) (evs : List Event) (e : Err),
      read_icalendar lines = .ok evs →
      extract_fields (remove_malformed evs) = .error e →
      pipeline lines w = .error e) := by
  constructor
  · intro ev
    simp only [hasKey_false_iff]
    constructor
    · intro h
      cases h1 : getValue? ev kDTSTART_VALUE_DATE with
      | some d => simp [extract_date, h1] at h
      | none =>
        cases h2 : getValue? ev kDTSTART_TZID with
        | some v => cases hp : strptime_local v <;> simp [extract_date, h1, h2, hp] at h
        | none =>
          cases h3 : getValue? ev kDTSTART with
          | some v =>
            cases hp : strptime_utc v with
            | none => simp [extract_date, h1, h2, h3, hp] at h
            | some dt =>
              cases ha : addHour dt <;> simp [extract_date, h1, h2, h3, hp, ha] at h
          | none => exact ⟨rfl, rfl, rfl⟩
    · rintro ⟨h1, h2, h3⟩
      simp [extract_date, h1, h2, h3]
  · intro lines w evs e hr he
    simp only [pipeline, hr, he]

/-- Witness for c5_missing_date_error: a concrete event with none of the
three date keys makes extract_date raise the missing-date error, and a
concrete run whose extraction fails aborts with that error. -/
theorem c5_missing_date_error_witness :
    extract_date [(kDESCRIPTION, pys "<a href=\"u\">v</a>w")] =
      .error (.missingDate [(kDESCRIPTION, pys "<a href=\"u\">v</a>w")]) ∧
    pipeline [pys "BEGIN:VEVENT", pys "DESCRIPTION:<a href=\"u\">v</a>w", pys "END:VEVENT"] true =
      .error (.missingDate [(kDESCRIPTION, pys "w"), (kTITLE, pys "v"), (kLINK, pys "u")]) := by
  constructor
  · exact (c5_missing_date_error.1 _).mpr ⟨by decide, by decide, by decide⟩
  · exact c5_missing_date_error.2 _ true
      [[(kDESCRIPTION, pys "<a href=\"u\">v</a>w")]] _ (by rfl) (by rfl)

lemma bind_ok {α β : Type} (a : α) (f : α → Except Err β) : (Except.ok a >>= f) = f a := rfl

lemma bind_err {α β : Type} (e : Err) (f : α → Except Err β) :
    ((Except.error e : Except Err α) >>= f) = Except.error e := rfl

lemma splitOnce_eq_none_iff (c : Char) (l : PyStr) : splitOnce c l = none ↔ c ∉ l := by
  induction l with
  | nil => simp [splitOnce]
  | cons x t ih =>
    by_cases hx : x = c
    · subst hx; simp [splitOnce]
    · simp [splitOnce, hx, Ne.symm hx, ih]

lemma mem_of_isPrefixOf {p l : PyStr} (h : p.isPrefixOf l = true) {c : Char} (hc : c ∈ p) :
    c ∈ l := by
  obtain ⟨t, rfl⟩ := List.isPrefixOf_iff_prefix.mp h
  exact List.mem_append_left t hc

/-- Counterexample to C6 as stated: the error raised on a colon-free line
is the fixed tuple-unpacking ValueError; two different offending lines
raise the very same error value, and its message does not contain the
offending line, so the error does not name it. -/
theorem c6_error_naming_counterexample :
    read_icalendar [pys "BEGIN:VEVENT", pys "NOCOLONLINE"] = .error .unpackError ∧
    read_icalendar [pys "BEGIN:VEVENT", pys "OTHERBADLINE"] = .error .unpackError ∧
    containsStr (errMessage .unpackError) "NOCOLONLINE" = false := by
  exact ⟨rfl, rfl, rfl⟩

/-- C6 (amended).  The loop of read_icalendar fails exactly on a
non-continuation line inside an event at sublevel 0 that contains no
colon, and the error is always the generic tuple-unpacking ValueError
(which does not name the line); a parse failure propagates, so the run
aborts with it and produces no CSV lines. -/
theorem c6_split_only_failure :
    (∀ (s : St) (l : PyStr) (e : Err), stepLine s l = .error e ↔
      (e = .unpackError ∧ s.inEvent = true ∧ s.sublevel = 0 ∧ l.head? ≠ some ' ' ∧ ':' ∉ l)) ∧
    (∀ (lines : List PyStr) (w : Bool) (e : Err),
      read_icalendar lines = .error e → pipeline lines w = .error e) := by
  constructor
  · intro s l e
    constructor
    · intro h
      unfold stepLine at h
      by_cases hin : s.inEvent = false
      · rw [if_pos hin] at h
        split_ifs at h
      · rw [if_neg hin] at h
        by_cases hEV : (pys "END:VEVENT").isPrefixOf l = true
        · rw [if_pos hEV] at h; simp at h
        · rw [if_neg hEV] at h
          by_cases hB : (pys "BEGIN:").isPrefixOf l = true
          · rw [if_pos hB] at h; simp at h
          · rw [if_neg hB] at h
            by_cases hE : (pys "END:").isPrefixOf l = true
            · rw [if_pos hE] at h; simp at h
            · rw [if_neg hE] at h
              by_cases h0 : s.sublevel = 0
              · rw [if_pos h0] at h
                by_cases hsp : l.head? = some ' '
                · rw [if_pos hsp] at h; simp at h
                · rw [if_neg hsp] at h
                  cases hsplit : splitOnce ':' l with
                  | some kv => rw [hsplit] at h; simp at h
                  | none =>
                    rw [hsplit] at h
                    refine ⟨?_, by simpa using hin, h0, hsp,
                      (splitOnce_eq_none_iff ':' l).mp hsplit⟩
                    cases h; rfl
              · rw [if_neg h0] at h; simp at h
    · rintro ⟨rfl, hin, h0, hsp, hc⟩
      have hEV : ¬ ((pys "END:VEVENT").isPrefixOf l = true) := fun hp =>
        hc (mem_of_isPrefixOf hp (by decide))
      have hB : ¬ ((pys "BEGIN:").isPrefixOf l = true) := fun hp =>
        hc (mem_of_isPrefixOf hp (by decide))
      have hE : ¬ ((pys "END:").isPrefixOf l = true) := fun hp =>
        hc (mem_of_isPrefixOf hp (by decide))
      have hsplit : splitOnce ':' l = none := (splitOnce_eq_none_iff ':' l).mpr hc
      unfold stepLine
      rw [if_neg (by simp [hin]), if_neg hEV, if_neg hB, if_neg hE, if_pos h0, if_neg hsp,
        hsplit]
  · intro lines w e h
    simp only [pipeline, h]

/-- Witness for c6_split_only_failure: a concrete state and colon-free
line where the loop raises the unpacking error, and a concrete run that
aborts with it. -/
theorem c6_split_only_failure_witness :
    stepLine ⟨[], [], none, [], true, 0⟩ (pys "NOCOLON") = .error .unpackError ∧
    pipeline [pys "BEGIN:VEVENT", pys "NOCOLON"] true = .error .unpackError := by
  constructor
  · exact (c6_split_only_failure.1 ⟨[], [], none, [], true, 0⟩ (pys "NOCOLON") .unpackError).mpr
      ⟨rfl, rfl, rfl, by decide, by decide⟩
  · exact c6_split_only_failure.2 _ true .unpackError (by rfl)

/-- Counterexample to C7 as stated: inside an event at sublevel 1, a line
starting with END:VEVENT does not merely decrement the sublevel; it
finalizes the event (appends it to the finished list, resets the
accumulators and leaves the event) while the sublevel stays 1. -/
theorem c7_end_vevent_nested_counterexample :
    stepLine ⟨[], [(kDESCRIPTION, pys "x")], none, [], true, 1⟩ (pys "END:VEVENT") =
      .ok ⟨[[(kDESCRIPTION, pys "x")]], [], none, [], false, 1⟩ := by
  exact rfl

/-- C7 (amended).  Inside an event with sublevel above 0: a line starting
with END:VEVENT finalizes the event (the END:VEVENT test precedes the
sublevel bookkeeping, and the sublevel is not reset); a line starting with
BEGIN: increments the sublevel (also re-flushing the pending field, which
stores nothing new since the accumulators cannot change at this depth); any
other line starting with END: decrements the sublevel; every other line is
discarded unchanged.  Hence a nested sub-component that does not contain an
END:VEVENT line, such as a VALARM, contributes no fields to the enclosing
event and does not finalize it, as the concrete run shows. -/
theorem c7_nested_behavior :
    (∀ (s : St) (l : PyStr), s.inEvent = true → 0 < s.sublevel →
      stepLine s l = .ok (
        if (pys "END:VEVENT").isPrefixOf l then
          { s with events := s.events ++ [add_field s.event s.field s.text],
                   event := [], field := none, text := [], inEvent := false }
        else if (pys "BEGIN:").isPrefixOf l then
          { s with event := add_field s.event s.field s.text, sublevel := s.sublevel + 1 }
        else if (pys "END:").isPrefixOf l then
          { s with sublevel := s.sublevel - 1 }
        else s)) ∧
    read_icalendar [pys "BEGIN:VEVENT", pys "DESCRIPTION:x", pys "BEGIN:VALARM",
                    pys "FOO:bar", pys "END:VALARM", pys "END:VEVENT"] =
      .ok [[(kDESCRIPTION, pys "x")]] := by
  constructor
  · intro s l hin hpos
    have h0 : ¬ (s.sublevel = 0) := by omega
    unfold stepLine
    rw [if_neg (by simp [hin])]
    split_ifs <;> simp_all
  · exact rfl

/-- Witness for c7_nested_behavior: a key/value-looking line at sublevel 2
is discarded without touching the state. -/
theorem c7_nested_behavior_witness :
    stepLine ⟨[], [], none, [], true, 2⟩ (pys "KEY:VALUE") = .ok ⟨[], [], none, [], true, 2⟩ := by
  exact (c7_nested_behavior.1 ⟨[], [], none, [], true, 2⟩ (pys "KEY:VALUE") rfl
    (by decide)).trans (by rfl)

lemma cdAux_error_missing_location :
    ∀ (rest : List Event) (i : Nat) (seen : List ((PyStr × PyStr) × Nat)),
      (∀ e ∈ rest, hasKey e kTITLE = true) →
      (∃ e ∈ rest, hasKey e kLOCATION = false) →
      cdAux i seen rest = .error (.keyError kLOCATION) := by
  intro rest
  induction rest with
  | nil => rintro i seen _ ⟨e, he, _⟩; simp at he
  | cons e rest ih =>
    intro i seen ht hl
    obtain ⟨t, htv⟩ := Option.isSome_iff_exists.mp (by
      simpa [hasKey] using ht e (List.mem_cons_self e rest))
    cases hlv : getValue? e kLOCATION with
    | none =>
      simp [cdAux, getItem, htv, hlv, bind_ok, bind_err]
    | some lv =>
      have hrest : ∃ x ∈ rest, hasKey x kLOCATION = false := by
        obtain ⟨x, hx, hxf⟩ := hl
        rcases List.mem_cons.mp hx with rfl | hx'
        · rw [hasKey_false_iff] at hxf; rw [hxf] at hlv; cases hlv
        · exact ⟨x, hx', hxf⟩
      have htrest : ∀ x ∈ rest, hasKey x kTITLE = true := fun x hx =>
        ht x (List.mem_cons_of_mem e hx)
      simp only [cdAux, getItem, htv, hlv, bind_ok]
      cases halo : alookup seen (t, lv) with
      | some j => simp [ih (i + 1) seen htrest hrest, bind_err]
      | none => simp [ih (i + 1) (seen ++ [((t, lv), i)]) htrest hrest]

/-- C10.  On a (sanitized and extracted) event list in which every event
has a TITLE but some event lacks the LOCATION key, the duplicate detector
indexes event['LOCATION'] without a default and raises KeyError, so a run
with duplicate warnings enabled aborts with that KeyError before any CSV
is produced; the CSV writer itself would have substituted the empty string
for the missing key (the Lugar cell of such an event's row is empty). -/
theorem c10_missing_location_keyerror (events : List Event)
    (ht : ∀ e ∈ events, hasKey e kTITLE = true)
    (hl : ∃ e ∈ events, hasKey e kLOCATION = false) :
    check_duplicates events = .error (.keyError kLOCATION) ∧
    (∀ e ∈ events, hasKey e kLOCATION = false → (rowCells e).get? 3 = some []) ∧
    (∀ (lines : List PyStr) (evs : List Event),
      read_icalendar lines = .ok evs →
      extract_fields (remove_malformed evs) = .ok events →
      pipeline lines true = .error (.keyError kLOCATION)) := by
  have hcd : check_duplicates events = .error (.keyError kLOCATION) :=
    cdAux_error_missing_location events 0 [] ht hl
  refine ⟨hcd, ?_, ?_⟩
  · intro e _ hfalse
    rw [hasKey_false_iff] at hfalse
    simp [rowCells, FIELD_KEYS, csvCell, getDefault, hfalse, escapeQuotes]
  · intro lines evs h1 h2
    simp only [pipeline, h1, h2, if_true, hcd]

/-- Witness for c10_missing_location_keyerror: one event with a TITLE and
no LOCATION trips the KeyError, while its CSV row has an empty fourth
cell. -/
theorem c10_missing_location_keyerror_witness :
    check_duplicates [[(kTITLE, pys "t")]] = .error (.keyError kLOCATION) ∧
    (rowCells [(kTITLE, pys "t")]).get? 3 = some [] := by
  have T := c10_missing_location_keyerror [[(kTITLE, pys "t")]] (by decide)
    ⟨[(kTITLE, pys "t")], by decide, by decide⟩
  exact ⟨T.1, T.2.1 _ (by decide) (by decide)⟩

lemma bad_indices_from_shift : ∀ (t : List Event) (i : Nat),
    bad_indices_from (i + 1) t = (bad_indices_from i t).map (· + 1) := by
  intro t
  induction t with
  | nil => intro i; rfl
  | cons e t ih =>
    intro i
    simp only [bad_indices_from, List.map_append, ih (i + 1)]
    by_cases hk : keepEvent e <;> simp [hk]

lemma foldl_erase_shift : ∀ (ixs : List Nat) (x : Event) (X : List Event),
    List.foldl (fun evs i => evs.eraseIdx i) (x :: X) (ixs.map (· + 1)) =
      x :: List.foldl (fun evs i => evs.eraseIdx i) X ixs := by
  intro ixs
  induction ixs with
  | nil => intro x X; rfl
  | cons i t ih =>
    intro x X
    simp only [List.map_cons, List.foldl_cons, List.eraseIdx_cons_succ]
    exact ih x (X.eraseIdx i)

/-- The collect-then-pop removal of remove_malformed is extensionally the
filter by the keepEvent test. -/
lemma remove_malformed_eq_filter (events : List Event) :
    remove_malformed events = events.filter keepEvent := by
  induction events with
  | nil => rfl
  | cons e evs ih =>
    unfold remove_malformed at ih ⊢
    unfold bad_indices at ih ⊢
    rw [show bad_indices_from 0 (e :: evs) =
          (if keepEvent e then [] else [0]) ++ (bad_indices_from 0 evs).map (· + 1) by
        rw [bad_indices_from, bad_indices_from_shift evs 0]]
    rw [List.reverse_append, List.foldl_append, ← List.map_reverse, foldl_erase_shift, ih,
      List.filter_cons]
    by_cases hk : keepEvent e
    · rw [if_pos hk, if_pos hk]
      rfl
    · rw [if_neg hk, if_neg hk]
      rfl

/-- C8.  Sanitization is idempotent: removing malformed events (those with
no DESCRIPTION, or a DESCRIPTION not starting with the anchor prefix) from
an already-sanitized list removes nothing further. -/
theorem c8_sanitize_idempotent (events : List Event) :
    remove_malformed (remove_malformed events) = remove_malformed events := by
  rw [remove_malformed_eq_filter, remove_malformed_eq_filter events, List.filter_filter]
  congr 1
  funext e
  by_cases hk : keepEvent e <;> simp [hk]

/-- The (TITLE, LOCATION) pair of an event, totalized with empty-string
defaults; on events that carry both keys it is exactly the identifier
check_duplicates builds. -/
def identKey (e : Event) : PyStr × PyStr := (getDefault e kTITLE [], getDefault e kLOCATION [])

/-- Specification-side description of the duplicate report, following the
claim's words: scanning positions in order, an event at 0-based position i
whose (TITLE, LOCATION) pair first occurs at an earlier position j is
reported as (i+1, j+1), 1-based, against that first occurrence. -/
def dupSpecAux (full : List Event) (i : Nat) : List Event → List (Nat × Nat)
  | [] => []
  | e :: rest =>
    (if full.findIdx (fun x => identKey x == identKey e) < i then
      [(i + 1, full.findIdx (fun x => identKey x == identKey e) + 1)]
    else []) ++ dupSpecAux full (i + 1) rest

/-- Specification-side duplicate report of a whole event list. -/
def dup_report_spec (events : List Event) : List (Nat × Nat) := dupSpecAux events 0 events

lemma findIdx_append_left {α : Type} (l₁ l₂ : List α) (p : α → Bool)
    (h : l₁.findIdx p < l₁.length) : (l₁ ++ l₂).findIdx p = l₁.findIdx p := by
  induction l₁ with
  | nil => simp at h
  | cons a t ih =>
    cases hp : p a with
    | true => simp [List.findIdx_cons, hp]
    | false =>
      simp only [List.findIdx_cons, hp, cond_false, List.length_cons] at h ⊢
      rw [List.cons_append, List.findIdx_cons, hp, cond_false, ih (by omega)]

lemma findIdx_append_not_found {α : Type} (l₁ l₂ : List α) (p : α → Bool)
    (h : l₁.findIdx p = l₁.length) : (l₁ ++ l₂).findIdx p = l₁.length + l₂.findIdx p := by
  induction l₁ with
  | nil => simp
  | cons a t ih =>
    cases hp : p a with
    | true => simp [List.findIdx_cons, hp] at h
    | false =>
      simp only [List.findIdx_cons, hp, cond_false, List.length_cons] at h ⊢
      rw [List.cons_append, List.findIdx_cons, hp, cond_false, ih (by omega)]
      omega

lemma alookup_append_single_found (xs : List ((PyStr × PyStr) × Nat)) (q : PyStr × PyStr)
    (n : Nat) (p : PyStr × PyStr) (j : Nat) (h : alookup xs p = some j) :
    alookup (xs ++ [(q, n)]) p = some j := by
  induction xs with
  | nil => simp [alookup] at h
  | cons x t ih =>
    obtain ⟨q', m⟩ := x
    by_cases hx : q' = p
    · simp only [alookup, if_pos hx] at h
      simp [alookup, hx, h]
    · simp only [alookup, if_neg hx] at h
      simp [alookup, hx, ih h]

lemma alookup_append_single_notfound (xs : List ((PyStr × PyStr) × Nat)) (q : PyStr × PyStr)
    (n : Nat) (p : PyStr × PyStr) (h : alookup xs p = none) :
    alookup (xs ++ [(q, n)]) p = if q = p then some n else none := by
  induction xs with
  | nil => simp [alookup]
  | cons x t ih =>
    obtain ⟨q', m⟩ := x
    by_cases hx : q' = p
    · simp [alookup, hx] at h
    · simp only [alookup, if_neg hx] at h
      simp [alookup, hx, ih h]

/-- The scan of check_duplicates computes the specification-side report:
seen holds exactly the first occurrence, among the already scanned prefix,
of each (TITLE, LOCATION) pair. -/
lemma cdAux_eq_spec :
    ∀ (rest pre : List Event) (seen : List ((PyStr × PyStr) × Nat)),
      (∀ e ∈ rest, hasKey e kTITLE = true ∧ hasKey e kLOCATION = true) →
      (∀ p : PyStr × PyStr, alookup seen p =
        if (pre.findIdx (fun x => identKey x == p)) < pre.length
        then some (pre.findIdx (fun x => identKey x == p)) else none) →
      cdAux pre.length seen rest = .ok (dupSpecAux (pre ++ rest) pre.length rest) := by
  intro rest
  induction rest with
  | nil => intro pre seen _ _; rfl
  | cons e rest ih =>
    intro pre seen hk H
    obtain ⟨t, htv⟩ := Option.isSome_iff_exists.mp (by
      simpa [hasKey] using (hk e (List.mem_cons_self e rest)).1)
    obtain ⟨lv, hlv⟩ := Option.isSome_iff_exists.mp (by
      simpa [hasKey] using (hk e (List.mem_cons_self e rest)).2)
    have hkrest : ∀ x ∈ rest, hasKey x kTITLE = true ∧ hasKey x kLOCATION = true :=
      fun x hx => hk x (List.mem_cons_of_mem e hx)
    have hid : identKey e = (t, lv) := by simp [identKey, getDefault, htv, hlv]
    have happ : (pre ++ [e]) ++ rest = pre ++ (e :: rest) := by
      rw [List.append_assoc, List.singleton_append]
    have hF := H (t, lv)
    simp only [cdAux, getItem, htv, hlv, bind_ok]
    by_cases hj : pre.findIdx (fun x => identKey x == (t, lv)) < pre.length
    · rw [hF, if_pos hj]
      have hF' : (pre ++ e :: rest).findIdx (fun x => identKey x == identKey e) =
          pre.findIdx (fun x => identKey x == (t, lv)) := by
        rw [hid]; exact findIdx_append_left pre (e :: rest) _ hj
      have hIH := ih (pre ++ [e]) seen hkrest (by
        intro p
        by_cases hp : pre.findIdx (fun x => identKey x == p) < pre.length
        · have hidx := findIdx_append_left pre [e] (fun x => identKey x == p) hp
          have hlen : pre.findIdx (fun x => identKey x == p) < (pre ++ [e]).length := by
            simp only [List.length_append, List.length_singleton]; omega
          rw [H p, if_pos hp, hidx, if_pos hlen]
        · have hnf : pre.findIdx (fun x => identKey x == p) = pre.length := by
            have := @List.findIdx_le_length _ (fun x => identKey x == p) pre
            omega
          cases hbe : identKey e == p with
          | true =>
            exfalso
            rw [beq_iff_eq] at hbe
            rw [hbe] at hid
            rw [← hid] at hj
            omega
          | false =>
            have hidx : (pre ++ [e]).findIdx (fun x => identKey x == p) = pre.length + 1 := by
              rw [findIdx_append_not_found pre [e] _ hnf]
              simp [List.findIdx_cons, hbe]
            rw [H p, if_neg hp, hidx, if_neg (by
              simp only [List.length_append, List.length_singleton]; omega)])
      rw [List.length_append, List.length_singleton, happ] at hIH
      rw [hIH]
      simp only [bind_ok, dupSpecAux, hF', if_pos hj]
      rfl
    · have hnf : pre.findIdx (fun x => identKey x == (t, lv)) = pre.length := by
        have := @List.findIdx_le_length _ (fun x => identKey x == (t, lv)) pre
        omega
      rw [hF, if_neg hj]
      have hF' : (pre ++ e :: rest).findIdx (fun x => identKey x == identKey e) =
          pre.length := by
        rw [hid, findIdx_append_not_found pre (e :: rest) _ hnf]
        simp [List.findIdx_cons, hid]
      have hIH := ih (pre ++ [e]) (seen ++ [((t, lv), pre.length)]) hkrest (by
        intro p
        by_cases hp : pre.findIdx (fun x => identKey x == p) < pre.length
        · have hsome : alookup seen p = some (pre.findIdx (fun x => identKey x == p)) := by
            rw [H p, if_pos hp]
          have hidx := findIdx_append_left pre [e] (fun x => identKey x == p) hp
          have hlen : pre.findIdx (fun x => identKey x == p) < (pre ++ [e]).length := by
            simp only [List.length_append, List.length_singleton]; omega
          rw [alookup_append_single_found seen (t, lv) pre.length p _ hsome, hidx, if_pos hlen]
        · have hnone : alookup seen p = none := by rw [H p, if_neg hp]
          have hnf' : pre.findIdx (fun x => identKey x == p) = pre.length := by
            have := @List.findIdx_le_length _ (fun x => identKey x == p) pre
            omega
          rw [alookup_append_single_notfound seen (t, lv) pre.length p hnone]
          by_cases hqp : (t, lv) = p
          · have hbe : (identKey e == p) = true := by
              rw [hid, hqp]; exact beq_self_eq_true p
            have hidx : (pre ++ [e]).findIdx (fun x => identKey x == p) = pre.length := by
              rw [findIdx_append_not_found pre [e] _ hnf']
              simp [List.findIdx_cons, hbe]
            rw [if_pos hqp, hidx, if_pos (by
              simp only [List.length_append, List.length_singleton]; omega)]
          · have hbe : (identKey e == p) = false := by
              rw [hid]; exact beq_eq_false_iff_ne.mpr hqp
            have hidx : (pre ++ [e]).findIdx (fun x => identKey x == p) = pre.length + 1 := by
              rw [findIdx_append_not_found pre [e] _ hnf']
              simp [List.findIdx_cons, hbe]
            rw [if_neg hqp, hidx, if_neg (by
              simp only [List.length_append, List.length_singleton]; omega)])
      rw [List.length_append, List.length_singleton, happ] at hIH
      rw [hIH]
      simp only [dupSpecAux, hF', if_neg (lt_irrefl pre.length), List.nil_append]

/-- C9.  Duplicate detection reports every later event whose
(TITLE, LOCATION) pair was seen before against the FIRST position that
carried the pair: the warnings are exactly the (i+1, firstIdx+1) pairs of
the specification-side report, so in a chain sharing one pair every later
member points at the chain's first member, never at an intermediate one.
The detector only reads the events (its result is just the report; the
event list handed to the CSV writer is not changed by it). -/
theorem c9_duplicate_first_seen (events : List Event)
    (hk : ∀ e ∈ events, hasKey e kTITLE = true ∧ hasKey e kLOCATION = true) :
    check_duplicates events = .ok (dup_report_spec events) := by
  have h := cdAux_eq_spec events [] [] hk (by intro p; rfl)
  simpa [check_duplicates, dup_report_spec] using h

/-- Witness for c9_duplicate_first_seen: a chain of three events with the
same title and location reports the 2nd and the 3rd as duplicates of the
1st. -/
theorem c9_duplicate_first_seen_witness :
    check_duplicates [[(kTITLE, pys "t"), (kLOCATION, pys "l")],
                      [(kTITLE, pys "t"), (kLOCATION, pys "l")],
                      [(kTITLE, pys "t"), (kLOCATION, pys "l")]] = .ok [(2, 1), (3, 1)] := by
  exact (c9_duplicate_first_seen _ (by decide)).trans (by rfl)

/-- The nine characters that open the anchor shape, up to and including
the opening quote of the link. -/
def tagOpen : PyStr := ['<', 'a', ' ', 'h', 'r', 'e', 'f', '=', '"']

/-- The first eight characters of tagOpen (the literal prefix the
Sanitizer tests). -/
def tagOpen8 : PyStr := ['<', 'a', ' ', 'h', 'r', 'e', 'f', '=']

/-- The closing quote of the link followed by the end of the opening
tag. -/
def tagMid : PyStr := ['"', '>']

/-- The closing anchor tag. -/
def tagClose : PyStr := ['<', '/', 'a', '>']

lemma findAux_char_append (c : Char) (zs ds : PyStr) (h : c ∉ zs) :
    findAux [c] (zs ++ c :: ds) = some zs.length := by
  induction zs with
  | nil => simp [findAux, List.isPrefixOf_cons₂, List.isPrefixOf]
  | cons z t ih =>
    have hz : ¬ ((c == z) = true) := by
      simp only [beq_iff_eq]
      intro h'
      exact h (h' ▸ List.mem_cons_self z t)
    have hpre : ([c].isPrefixOf (z :: (t ++ c :: ds))) = false := by
      simp only [List.isPrefixOf_cons₂, List.isPrefixOf]
      simp [hz]
    rw [List.cons_append]
    simp only [findAux, hpre, Bool.false_eq_true, if_false,
      ih (fun hc => h (List.mem_cons_of_mem z hc))]
    rfl

lemma findAux_close_skip (zs ds : PyStr) (h : '>' ∉ zs) :
    findAux tagClose (zs ++ '"' :: '>' :: ds) =
      (findAux tagClose ds).map (· + (zs.length + 2)) := by
  induction zs with
  | nil =>
    have h1 : tagClose.isPrefixOf ('"' :: '>' :: ds) = false := by
      simp [tagClose, List.isPrefixOf_cons₂]
    have h2 : tagClose.isPrefixOf ('>' :: ds) = false := by
      simp [tagClose, List.isPrefixOf_cons₂]
    simp only [List.nil_append, findAux, h1, h2, Bool.false_eq_true, if_false]
    cases hd : findAux tagClose ds with
    | none => rfl
    | some n => simp
  | cons z t ih =>
    have hpre : tagClose.isPrefixOf (z :: (t ++ '"' :: '>' :: ds)) = false := by
      rcases t with _ | ⟨a, _ | ⟨b, _ | ⟨c, r⟩⟩⟩
      · simp [tagClose, List.isPrefixOf_cons₂]
      · simp [tagClose, List.isPrefixOf_cons₂]
      · simp [tagClose, List.isPrefixOf_cons₂]
      · simp only [tagClose, List.cons_append, List.isPrefixOf_cons₂, List.isPrefixOf,
          Bool.and_eq_false_iff]
        by_cases hc : c = '>'
        · exfalso
          exact h (by simp [hc])
        · exact Or.inr (Or.inr (Or.inr (Or.inl
            (beq_eq_false_iff_ne.mpr (fun h' => hc h'.symm)))))
    have ht : '>' ∉ t := fun hc => h (List.mem_cons_of_mem z hc)
    rw [List.cons_append]
    simp only [findAux, hpre, Bool.false_eq_true, if_false, ih ht]
    cases hd : findAux tagClose ds with
    | none => rfl
    | some n =>
      simp only [Option.map_some', Option.some.injEq, List.length_cons]
      omega

lemma findAux_close_here (T ds : PyStr) (h : '>' ∉ T) :
    findAux tagClose (T ++ (tagClose ++ ds)) = some T.length := by
  induction T with
  | nil =>
    show findAux tagClose ('<' :: '/' :: 'a' :: '>' :: ds) = some 0
    have hpre : tagClose.isPrefixOf ('<' :: '/' :: 'a' :: '>' :: ds) = true := by
      simp [tagClose, List.isPrefixOf_cons₂, List.isPrefixOf]
    simp [findAux, hpre]
  | cons z t ih =>
    have hpre : tagClose.isPrefixOf (z :: (t ++ (tagClose ++ ds))) = false := by
      rcases t with _ | ⟨a, _ | ⟨b, _ | ⟨c, r⟩⟩⟩
      · simp [tagClose, List.isPrefixOf_cons₂]
      · simp [tagClose, List.isPrefixOf_cons₂]
      · simp [tagClose, List.isPrefixOf_cons₂]
      · simp only [tagClose, List.cons_append, List.isPrefixOf_cons₂, List.isPrefixOf,
          Bool.and_eq_false_iff]
        by_cases hc : c = '>'
        · exfalso
          exact h (by simp [hc])
        · exact Or.inr (Or.inr (Or.inr (Or.inl
            (beq_eq_false_iff_ne.mpr (fun h' => hc h'.symm)))))
    have ht : '>' ∉ t := fun hc => h (List.mem_cons_of_mem z hc)
    rw [List.cons_append]
    simp only [findAux, hpre, Bool.false_eq_true, if_false, ih ht]
    rfl

lemma findAux_href (rest : PyStr) :
    findAux (pys "href=") (tagOpen ++ rest) = some 3 := by
  have hp : (pys "href=").isPrefixOf ('h' :: 'r' :: 'e' :: 'f' :: '=' :: '"' :: rest) = true := by
    simp [pys, List.isPrefixOf_cons₂, List.isPrefixOf]
  have h0 : (pys "href=").isPrefixOf ('<' :: 'a' :: ' ' :: 'h' :: 'r' :: 'e' :: 'f' :: '=' :: '"' :: rest) = false := by
    simp [pys, List.isPrefixOf_cons₂]
  have h1 : (pys "href=").isPrefixOf ('a' :: ' ' :: 'h' :: 'r' :: 'e' :: 'f' :: '=' :: '"' :: rest) = false := by
    simp [pys, List.isPrefixOf_cons₂]
  have h2 : (pys "href=").isPrefixOf (' ' :: 'h' :: 'r' :: 'e' :: 'f' :: '=' :: '"' :: rest) = false := by
    simp [pys, List.isPrefixOf_cons₂]
  show findAux (pys "href=") ('<' :: 'a' :: ' ' :: 'h' :: 'r' :: 'e' :: 'f' :: '=' :: '"' :: rest) = some 3
  simp only [findAux, h0, h1, h2, hp, Bool.false_eq_true, if_false, if_true]
  rfl

lemma pySlice_natCast (s : PyStr) (a b : Nat) :
    pySlice s (a : Int) (b : Int) = (s.take b).drop a := by
  have ha : ¬ ((a : Int) < 0) := Int.not_lt.mpr (Int.natCast_nonneg a)
  have hb : ¬ ((b : Int) < 0) := Int.not_lt.mpr (Int.natCast_nonneg b)
  simp [pySlice, sliceIdx, ha, hb]

lemma pySliceFrom_natCast (s : PyStr) (a : Nat) : pySliceFrom s (a : Int) = s.drop a := by
  have ha : ¬ ((a : Int) < 0) := Int.not_lt.mpr (Int.natCast_nonneg a)
  simp [pySliceFrom, sliceIdx, ha]

lemma stripP_cons_of (p : Char → Bool) (c : Char) (s : PyStr) (h : p c = true) :
    stripP p (c :: s) = stripP p s := by
  simp [stripP, lstripP, List.dropWhile_cons, h]

lemma stripP_concat_of (p : Char → Bool) (s : PyStr) (c : Char) (h : p c = true) :
    stripP p (s ++ [c]) = stripP p s := by
  unfold stripP lstripP rstripP
  by_cases hs : s.dropWhile p = []
  · simp [List.dropWhile_append, hs, List.dropWhile_cons, h]
  · simp [List.dropWhile_append, hs, List.reverse_append, List.dropWhile_cons, h]

lemma stripQuotes_wrap (L : PyStr) : stripQuotes ('"' :: (L ++ ['"'])) = stripQuotes L := by
  unfold stripQuotes
  rw [stripP_cons_of _ _ _ (by rfl), stripP_concat_of _ _ _ (by rfl)]

/-- Counterexample to C2 as stated: a description of the claimed shape
whose link part starts with a double quote.  Extraction strips ALL leading
and trailing quote characters from the slice between the quotes, so LINK
comes out as x instead of the claimed L (which is the two characters
quote-x). -/
theorem c2_link_quote_counterexample :
    pys "<a href=\"\"x\">T</a>D" =
      tagOpen ++ pys "\"x" ++ tagMid ++ pys "T" ++ tagClose ++ pys "D" ∧
    ('>' ∉ pys "\"x" ∧ '>' ∉ pys "T") ∧
    extract_title_and_link [(kDESCRIPTION, pys "<a href=\"\"x\">T</a>D")] =
      .ok [(kDESCRIPTION, pys "D"), (kTITLE, pys "T"), (kLINK, pys "x")] ∧
    pys "x" ≠ pys "\"x" := by
  exact ⟨rfl, by decide, rfl, by decide⟩

/-- C2 (amended).  For every event whose DESCRIPTION has the exact anchor
shape around L, T and D, with no greater-than sign inside L or T (hence no
closing tag inside them either), extraction sets TITLE to T trimmed of
leading and trailing whitespace, LINK to L trimmed of leading and trailing
double-quote characters (so LINK is L itself whenever L neither starts nor
ends with a double quote), and replaces DESCRIPTION with D trimmed of
leading and trailing whitespace. -/
theorem c2_extract_shape (ev : Event) (L T D : PyStr)
    (hdesc : getValue? ev kDESCRIPTION =
      some (tagOpen ++ L ++ tagMid ++ T ++ tagClose ++ D))
    (hL : '>' ∉ L) (hT : '>' ∉ T) :
    extract_title_and_link ev = .ok
      (insertKey (insertKey (insertKey ev kTITLE (pystrip T)) kLINK (stripQuotes L))
        kDESCRIPTION (pystrip D)) := by
  set d := tagOpen ++ L ++ tagMid ++ T ++ tagClose ++ D with hdDef
  have hg1 : d = tagOpen ++ (L ++ (tagMid ++ (T ++ (tagClose ++ D)))) := by
    rw [hdDef]; simp [List.append_assoc]
  have hg2 : d = (tagOpen ++ L ++ ['"']) ++ ('>' :: (T ++ (tagClose ++ D))) := by
    rw [hdDef]; simp [tagMid, List.append_assoc]
  have hg3 : d = (tagOpen ++ L) ++ '"' :: '>' :: (T ++ (tagClose ++ D)) := by
    rw [hdDef]; simp [tagMid, List.append_assoc]
  have hmem1 : '>' ∉ tagOpen ++ L ++ ['"'] := by
    simp only [List.mem_append, List.mem_singleton]
    rintro ((hmo | hml) | hq)
    · revert hmo; decide
    · exact hL hml
    · cases hq
  have hmem2 : '>' ∉ tagOpen ++ L := by
    simp only [List.mem_append]
    rintro (hmo | hml)
    · revert hmo; decide
    · exact hL hml
  have hlen1 : (tagOpen ++ L ++ ['"']).length = 10 + L.length := by
    simp [tagOpen]; omega
  have f1 : pyFind d (pys "href=") = 3 := by
    have hf : findAux (pys "href=") d = some 3 := by
      rw [hg1]; exact findAux_href _
    simp [pyFind, hf]
  have f2 : pyFind d (pys ">") = ((10 + L.length : Nat) : Int) := by
    have hf : findAux (pys ">") d = some (10 + L.length) := by
      rw [hg2, show pys ">" = ['>'] from rfl,
        findAux_char_append '>' (tagOpen ++ L ++ ['"']) (T ++ (tagClose ++ D)) hmem1, hlen1]
    simp [pyFind, hf]
  have f3 : pyFind d (pys "</a>") = ((11 + L.length + T.length : Nat) : Int) := by
    have hf : findAux (pys "</a>") d = some (11 + L.length + T.length) := by
      rw [hg3, show pys "</a>" = tagClose from rfl,
        findAux_close_skip (tagOpen ++ L) (T ++ (tagClose ++ D)) hmem2]
      rw [show T ++ (tagClose ++ D) = T ++ tagClose ++ D from by simp [List.append_assoc],
        show T ++ tagClose ++ D = T ++ (tagClose ++ D) from by simp [List.append_assoc],
        findAux_close_here T D hT]
      simp only [Option.map_some', Option.some.injEq, List.length_append]
      simp [tagOpen]
      omega
    simp [pyFind, hf]
  have e1 : ((10 + L.length : Nat) : Int) + 1 = ((11 + L.length : Nat) : Int) := by
    push_cast; ring
  have e2 : (3 : Int) + 5 = ((8 : Nat) : Int) := by norm_num
  have e3 : ((11 + L.length + T.length : Nat) : Int) + 4 =
      ((15 + L.length + T.length : Nat) : Int) := by
    push_cast; ring
  have s1 : (d.take (11 + L.length + T.length)).drop (11 + L.length) = T := by
    rw [show d = ((tagOpen ++ L ++ tagMid) ++ T) ++ (tagClose ++ D) from by
        rw [hdDef]; simp [List.append_assoc]]
    rw [List.take_left' (by simp [tagOpen, tagMid]; omega)]
    rw [List.drop_left' (by simp [tagOpen, tagMid]; omega)]
  have s2 : (d.take (10 + L.length)).drop 8 = '"' :: (L ++ ['"']) := by
    rw [hg2, List.take_left' hlen1]
    rw [show tagOpen ++ L ++ ['"'] = tagOpen8 ++ ('"' :: (L ++ ['"'])) from by
        simp [tagOpen, tagOpen8]]
    rw [List.drop_left' (by simp [tagOpen8])]
  have s3 : d.drop (15 + L.length + T.length) = D := by
    rw [show d = ((tagOpen ++ L ++ tagMid ++ T) ++ tagClose) ++ D from by rw [hdDef]]
    rw [List.drop_left' (by simp [tagOpen, tagMid, tagClose]; omega)]
  simp only [extract_title_and_link, hdesc, ← hdDef]
  rw [f1, f2, f3, e1, e2, e3, pySlice_natCast, pySlice_natCast, pySliceFrom_natCast,
    s1, s2, s3, stripQuotes_wrap]

/-- Witness for c2_extract_shape at a concrete anchor-shaped description
with whitespace around the title and the rest. -/
theorem c2_extract_shape_witness :
    extract_title_and_link [(kDESCRIPTION, pys "<a href=\"http://x\"> Talk </a> rest ")] =
      .ok [(kDESCRIPTION, pys "rest"), (kTITLE, pys "Talk"), (kLINK, pys "http://x")] := by
  exact (c2_extract_shape [(kDESCRIPTION, pys "<a href=\"http://x\"> Talk </a> rest ")]
    (pys "http://x") (pys " Talk ") (pys " rest ") (by rfl) (by decide) (by decide)).trans
    (by rfl)

end ICS
